import Mathlib

/-!
Verification of the TierOne `srec` Motorola S-record codec.

The definitions below are a shallow embedding of `src/srec/srec.h`,
`src/srec/srec.cpp` and `src/srec/srec_exceptions.h`.  C++ `uint8_t`
values are modelled as `Nat` kept below 256, `unsigned int` as `Nat`
kept below `2^32`, strings as `List Char`, thrown exceptions as
`Except SrecErr`.
-/

/-- The error taxonomy of `srec_exceptions.h`, with the structured
fields the exception classes carry.  `SrecAddressException` is the
`invalidAddress` validation variant (it carries address and maximum);
the checksum-mismatch message carries the expected and actual bytes. -/
inductive ValidationError where
  | checksumMismatch (expected actual : Nat)
  | invalidFormat
  | invalidAddress (address maxAddress : Nat)
  | dataTooLarge
  | invalidRecordType
  | userCancelled
  deriving DecidableEq, Repr

/-- Parse-failure variants of `SrecParseException`, one per distinct
throw site in `srec.cpp`. -/
inductive ParseErr where
  | invalidFormat
  | tooShort
  | invalidType (c : Char)
  | invalidHexChar (c : Char)
  | incompleteHex
  | lengthMismatch (expected actual : Nat)
  deriving DecidableEq, Repr

/-- All error outcomes of the embedded code.  `fileNotOpen` is
`SrecFileException`, `validation` is `SrecValidationException`,
`parse` is `SrecParseException`; `stdInvalidArg` models the plain
`std::invalid_argument` thrown by the `Srec5`/`Srec6` constructors,
`failedToParseHexData` the `std::ios_base::failure` thrown by
`convert_srec_to_bin` when `std::stoi` cannot parse a pair, and
`substrOutOfRange` the `std::out_of_range` that `std::string::substr`
raises on a line shorter than the fixed header. -/
inductive SrecErr where
  | fileNotOpen
  | validation (v : ValidationError)
  | parse (p : ParseErr)
  | stdInvalidArg
  | failedToParseHexData
  | substrOutOfRange
  deriving DecidableEq, Repr

deriving instance DecidableEq for Except

/-- Uppercase hexadecimal digit character, as produced by
`std::uppercase << std::hex` for a digit value below 16. -/
def hexDigitChar (n : Nat) : Char :=
  if n < 10 then Char.ofNat (48 + n) else Char.ofNat (55 + n)

/-- `std::setfill('0') << std::setw(2) << std::hex` of a byte value:
exactly two uppercase hex digits.  Every value the code prints this
way is below 256 (`uint8_t` bytes, and a byte count guarded to at
most 255), where this is the exact stream output. -/
def hex2 (n : Nat) : List Char :=
  [hexDigitChar (n / 16), hexDigitChar (n % 16)]

/-- The per-byte hex printing loop of `Srec::toString` /
`ASCIIToHexString`. -/
def hexBytes : List Nat → List Char
  | [] => []
  | b :: bs => hex2 b ++ hexBytes bs

/-- The nine record variants of the `Srec` class hierarchy, with the
fields each leaf class stores. -/
inductive Srec where
  | S0 (header : List Nat)
  | S1 (address : Nat) (data : List Nat)
  | S2 (address : Nat) (data : List Nat)
  | S3 (address : Nat) (data : List Nat)
  | S5 (count : Nat)
  | S6 (count : Nat)
  | S7 (address : Nat)
  | S8 (address : Nat)
  | S9 (address : Nat)
  deriving DecidableEq, Repr

/-- `Srec::getTypeChar`. -/
def Srec.typeChar : Srec → Char
  | .S0 _ => '0'
  | .S1 _ _ => '1'
  | .S2 _ _ => '2'
  | .S3 _ _ => '3'
  | .S5 _ => '5'
  | .S6 _ => '6'
  | .S7 _ => '7'
  | .S8 _ => '8'
  | .S9 _ => '9'

/-- Big-endian byte extraction `(v >> (8*k)) & 0xFF` used by every
`getRecordData` override. -/
def byteAt (v k : Nat) : Nat := (v >>> (8 * k)) % 256

/-- `Srec::getRecordData` of each leaf class: the address (or count)
field bytes, big-endian, followed by any data payload.  `Srec0`
prepends the two zero address bytes. -/
def Srec.getRecordData : Srec → List Nat
  | .S0 h => 0 :: 0 :: h
  | .S1 a d => byteAt a 1 :: byteAt a 0 :: d
  | .S2 a d => byteAt a 2 :: byteAt a 1 :: byteAt a 0 :: d
  | .S3 a d => byteAt a 3 :: byteAt a 2 :: byteAt a 1 :: byteAt a 0 :: d
  | .S5 c => [byteAt c 1, byteAt c 0]
  | .S6 c => [byteAt c 2, byteAt c 1, byteAt c 0]
  | .S7 a => [byteAt a 3, byteAt a 2, byteAt a 1, byteAt a 0]
  | .S8 a => [byteAt a 2, byteAt a 1, byteAt a 0]
  | .S9 a => [byteAt a 1, byteAt a 0]

/-- `Srec::checksum`: `sum = data.size() + 1 + Σ bytes`; the result is
`~static_cast<std::byte>(sum & 0xFF)`, i.e. `255 - (sum % 256)`. -/
def Srec.checksumByte (data : List Nat) : Nat :=
  255 - ((data.length + 1 + data.sum) % 256)

/-- `Srec::toString`: rejects record data above 254 bytes with a
`DATA_TOO_LARGE` validation error, otherwise prints
`'S' + type char + 2-digit count (size+1) + data bytes + 2-digit
checksum`. -/
def Srec.toString (r : Srec) : Except SrecErr (List Char) :=
  let data := r.getRecordData
  if data.length > 254 then
    .error (.validation .dataTooLarge)
  else
    .ok ('S' :: r.typeChar :: (hex2 (data.length + 1) ++ hexBytes data ++ hex2 (Srec.checksumByte data)))

/-- Range-checking constructor of `Srec1` (throws
`SrecAddressException(addr, 0xFFFF)` on a too-large address). -/
def mkSrec1 (addr : Nat) (d : List Nat) : Except SrecErr Srec :=
  if addr > 0xFFFF then .error (.validation (.invalidAddress addr 0xFFFF)) else .ok (.S1 addr d)

/-- Range-checking constructor of `Srec2`. -/
def mkSrec2 (addr : Nat) (d : List Nat) : Except SrecErr Srec :=
  if addr > 0xFFFFFF then .error (.validation (.invalidAddress addr 0xFFFFFF)) else .ok (.S2 addr d)

/-- Constructor of `Srec3`: no range check (`unsigned int` covers the
full 32-bit address space). -/
def mkSrec3 (addr : Nat) (d : List Nat) : Except SrecErr Srec :=
  .ok (.S3 addr d)

/-- Constructor of `Srec5` (throws `std::invalid_argument` above
0xFFFF). -/
def mkSrec5 (c : Nat) : Except SrecErr Srec :=
  if c > 0xFFFF then .error .stdInvalidArg else .ok (.S5 c)

/-- Constructor of `Srec6` (throws `std::invalid_argument` above
0xFFFFFF). -/
def mkSrec6 (c : Nat) : Except SrecErr Srec :=
  if c > 0xFFFFFF then .error .stdInvalidArg else .ok (.S6 c)

/-- Constructor of `Srec7`: no range check. -/
def mkSrec7 (addr : Nat) : Except SrecErr Srec :=
  .ok (.S7 addr)

/-- Range-checking constructor of `Srec8`. -/
def mkSrec8 (addr : Nat) : Except SrecErr Srec :=
  if addr > 0xFFFFFF then .error (.validation (.invalidAddress addr 0xFFFFFF)) else .ok (.S8 addr)

/-- Range-checking constructor of `Srec9`. -/
def mkSrec9 (addr : Nat) : Except SrecErr Srec :=
  if addr > 0xFFFF then .error (.validation (.invalidAddress addr 0xFFFF)) else .ok (.S9 addr)

/-- `SrecFile::AddressSize`. -/
inductive AddressSize where
  | bits16
  | bits24
  | bits32
  deriving DecidableEq, Repr

/-- The mutable state of a `SrecFile` writer session: the open flag of
the owned `std::fstream`, the current data address, the execution
address, the configured address size and the running record count.
The filename plays no role in any claim and is omitted. -/
structure SrecFileState where
  isOpen : Bool
  address : Nat
  exec_address : Nat
  address_size_bits : AddressSize
  record_count : Nat
  deriving DecidableEq, Repr

/-- The `SrecFile` constructor: stores the start address as both the
current and the execution address, zero records written; `opened`
records whether `file.open` succeeded (an I/O outcome). -/
def SrecFile.init (w : AddressSize) (start : Nat) (opened : Bool) : SrecFileState :=
  { isOpen := opened, address := start, exec_address := start,
    address_size_bits := w, record_count := 0 }

/-- `SrecFile::close` (flush + close the handle). -/
def SrecFile.close (s : SrecFileState) : SrecFileState :=
  { s with isOpen := false }

/-- `SrecFile::max_data_bytes_per_record`: the literal arithmetic of
the source (`255 - 1 - 4 - 1`, `255 - 1 - 6 - 1`, `255 - 1 - 8 - 1`),
which subtracts the address field width in hex characters. -/
def max_data_bytes_per_record (w : AddressSize) : Nat :=
  match w with
  | .bits16 => 255 - 1 - 4 - 1
  | .bits24 => 255 - 1 - 6 - 1
  | .bits32 => 255 - 1 - 8 - 1

/-- Address field width in bytes of the data record each address size
selects. -/
def addrWidthBytes (w : AddressSize) : Nat :=
  match w with
  | .bits16 => 2
  | .bits24 => 3
  | .bits32 => 4

/-- Type digit of the data record each address size selects. -/
def dataTypeChar (w : AddressSize) : Char :=
  match w with
  | .bits16 => '1'
  | .bits24 => '2'
  | .bits32 => '3'

/-- The data record `write_record_payload` constructs for each address
size. -/
def dataRecord (w : AddressSize) (a : Nat) (d : List Nat) : Srec :=
  match w with
  | .bits16 => .S1 a d
  | .bits24 => .S2 a d
  | .bits32 => .S3 a d

/-- Whether the data record constructor for this width accepts the
address (the `addr > max` checks in `Srec1`/`Srec2`; `Srec3` accepts
everything). -/
def dataRecordAddrOK (w : AddressSize) (a : Nat) : Bool :=
  match w with
  | .bits16 => a ≤ 0xFFFF
  | .bits24 => a ≤ 0xFFFFFF
  | .bits32 => true

/-- `SrecFile::write_record_payload`: rejects a closed file, a record
count at `MAX_RECORD_COUNT` (1'000'000), and
`buffer.size() > 0 && address > UINT32_MAX - buffer.size()`.  That
subtraction is `size_t` arithmetic: for a buffer longer than
`UINT32_MAX` bytes it wraps modulo `2^64` to a value of at least
`2^32`, so the guard stays false and the call falls through to the
record size check instead; the `Int` remainder below models the wrap
exactly.  The address the exception carries is the 32-bit truncation
of `address + buffer.size()`.  Then the S1/S2/S3 record at the
current address is built and formatted, and on success the 32-bit
address advances by the buffer length and the record count by one. -/
def write_record_payload (s : SrecFileState) (buffer : List Nat) :
    Except SrecErr (SrecFileState × List Char) :=
  if s.isOpen = false then .error .fileNotOpen
  else if s.record_count ≥ 1000000 then .error (.validation .dataTooLarge)
  else if 0 < buffer.length ∧
      (s.address : Int) > (4294967295 - (buffer.length : Int)) % 2 ^ 64 then
    .error (.validation (.invalidAddress ((s.address + buffer.length) % 2 ^ 32) 4294967295))
  else do
    let r ← (match s.address_size_bits with
      | .bits16 => mkSrec1 s.address buffer
      | .bits24 => mkSrec2 s.address buffer
      | .bits32 => mkSrec3 s.address buffer)
    let line ← r.toString
    .ok ({ s with record_count := s.record_count + 1,
                  address := (s.address + buffer.length) % 2 ^ 32 }, line)

/-- `SrecFile::write_record_count`: rejects a closed file and a count
above 0xFFFFFF, emits S5 for counts up to 0xFFFF and S6 otherwise;
the session state is unchanged. -/
def write_record_count (s : SrecFileState) : Except SrecErr (SrecFileState × List Char) :=
  if s.isOpen = false then .error .fileNotOpen
  else if s.record_count > 0xFFFFFF then .error (.validation .dataTooLarge)
  else do
    let r ← if s.record_count ≤ 0xFFFF then mkSrec5 s.record_count else mkSrec6 s.record_count
    let line ← r.toString
    .ok (s, line)

/-- `SrecFile::write_record_termination`: rejects a closed file, then
emits S9/S8/S7 (mirroring the 16/24/32-bit width) carrying the
execution address; the session state is unchanged. -/
def write_record_termination (s : SrecFileState) : Except SrecErr (SrecFileState × List Char) :=
  if s.isOpen = false then .error .fileNotOpen
  else do
    let r ← (match s.address_size_bits with
      | .bits16 => mkSrec9 s.exec_address
      | .bits24 => mkSrec8 s.exec_address
      | .bits32 => mkSrec7 s.exec_address)
    let line ← r.toString
    .ok (s, line)

/-- `ASCIIToHexString`: each input char is cast to `unsigned char` and
printed as two uppercase hex digits. -/
def ASCIIToHexString (buffer : List Nat) : List Char :=
  hexBytes (buffer.map (· % 256))

/-- `SrecFile::write_header(const std::vector<std::string>&)`: one S0
record per string, whose payload is the ASCII codes of the hex string
`ASCIIToHexString` produced. -/
def write_header_strings (s : SrecFileState) (hs : List (List Nat)) :
    Except SrecErr (SrecFileState × List (List Char)) :=
  if s.isOpen = false then .error .fileNotOpen
  else do
    let lines ← hs.mapM (fun h => (Srec.S0 ((ASCIIToHexString h).map Char.toNat)).toString)
    .ok (s, lines)

/-- `SrecFile::write_header(const std::vector<uint8_t>&)`: one S0
record with the given payload. -/
def write_header_bytes (s : SrecFileState) (h : List Nat) :
    Except SrecErr (SrecFileState × List Char) :=
  if s.isOpen = false then .error .fileNotOpen
  else do
    let line ← (Srec.S0 h).toString
    .ok (s, line)

/-- The public mutating operations of a `SrecFile` session. -/
inductive FileOp where
  | headerStrings (hs : List (List Nat))
  | headerBytes (h : List Nat)
  | payload (buffer : List Nat)
  | count
  | termination
  | closeOp

/-- One session operation, returning the lines it appends to the
file. -/
def applyFileOp (s : SrecFileState) : FileOp → Except SrecErr (SrecFileState × List (List Char))
  | .headerStrings hs => write_header_strings s hs
  | .headerBytes h => (write_header_bytes s h).map (fun p => (p.1, [p.2]))
  | .payload b => (write_record_payload s b).map (fun p => (p.1, [p.2]))
  | .count => (write_record_count s).map (fun p => (p.1, [p.2]))
  | .termination => (write_record_termination s).map (fun p => (p.1, [p.2]))
  | .closeOp => .ok (SrecFile.close s, [])

/-- A sequence of session operations, collecting the emitted lines. -/
def runFileOps (s : SrecFileState) : List FileOp → Except SrecErr (SrecFileState × List (List Char))
  | [] => .ok (s, [])
  | op :: ops => do
    let (s1, ls) ← applyFileOp s op
    let (s2, ls2) ← runFileOps s1 ops
    .ok (s2, ls ++ ls2)

/-- The address field bytes a data record of each width stores in
front of its payload. -/
def addrFieldBytes (w : AddressSize) (a : Nat) : List Nat :=
  match w with
  | .bits16 => [byteAt a 1, byteAt a 0]
  | .bits24 => [byteAt a 2, byteAt a 1, byteAt a 0]
  | .bits32 => [byteAt a 3, byteAt a 2, byteAt a 1, byteAt a 0]

/-- The termination record the width selects. -/
def termRecord (w : AddressSize) (a : Nat) : Srec :=
  match w with
  | .bits16 => .S9 a
  | .bits24 => .S8 a
  | .bits32 => .S7 a

/-- The nine record type tags, as the stream parser distinguishes
them. -/
inductive SrecType where
  | s0
  | s1
  | s2
  | s3
  | s5
  | s6
  | s7
  | s8
  | s9
  deriving DecidableEq, Repr

/-- `SrecStreamParser::ParsedRecord`. -/
structure ParsedRecord where
  type : SrecType
  address : Nat
  data : List Nat
  checksum : Nat
  checksum_valid : Bool
  line_number : Nat
  deriving DecidableEq, Repr

/-- `SrecStreamParser::hex_char_to_byte`. -/
def hex_char_to_byte (c : Char) : Except SrecErr Nat :=
  if '0' ≤ c ∧ c ≤ '9' then .ok (c.toNat - '0'.toNat)
  else if 'A' ≤ c ∧ c ≤ 'F' then .ok (c.toNat - 'A'.toNat + 10)
  else if 'a' ≤ c ∧ c ≤ 'f' then .ok (c.toNat - 'a'.toNat + 10)
  else .error (.parse (.invalidHexChar c))

/-- `SrecStreamParser::parse_hex_byte`: two hex characters at
`offset`; `(high << 4) | low` equals `16 * high + low` for the digit
values below 16 that `hex_char_to_byte` returns. -/
def parse_hex_byte (line : List Char) (offset : Nat) : Except SrecErr Nat :=
  if offset + 1 ≥ line.length then .error (.parse .incompleteHex)
  else do
    let high ← hex_char_to_byte (line.getD offset ' ')
    let low ← hex_char_to_byte (line.getD (offset + 1) ' ')
    .ok (16 * high + low)

/-- `SrecStreamParser::char_to_type`. -/
def char_to_type (c : Char) : Except SrecErr SrecType :=
  if c = '0' then .ok .s0
  else if c = '1' then .ok .s1
  else if c = '2' then .ok .s2
  else if c = '3' then .ok .s3
  else if c = '5' then .ok .s5
  else if c = '6' then .ok .s6
  else if c = '7' then .ok .s7
  else if c = '8' then .ok .s8
  else if c = '9' then .ok .s9
  else .error (.parse (.invalidType c))

/-- Address field width (bytes) the parser's switch assigns to each
record type. -/
def SrecType.addressBytes : SrecType → Nat
  | .s0 => 2
  | .s1 => 2
  | .s2 => 3
  | .s3 => 4
  | .s5 => 2
  | .s6 => 3
  | .s7 => 4
  | .s8 => 3
  | .s9 => 2

/-- The parser's fixed-offset loop reading `n` bytes starting at
`offset`, stepping two characters per byte. -/
def parseBytes (line : List Char) (offset : Nat) : Nat → Except SrecErr (List Nat)
  | 0 => .ok []
  | n + 1 => do
    let b ← parse_hex_byte line offset
    let rest ← parseBytes line (offset + 2) n
    .ok (b :: rest)

/-- Big-endian value of a byte list: the parser composes address
bytes with shifts and bitwise or, which for byte values below 256 is
this base-256 fold. -/
def beValue (bs : List Nat) : Nat :=
  bs.foldl (fun acc b => acc * 256 + b) 0

/-- The fields `parse_line` extracts from a line before checksum
validation. -/
structure LinePieces where
  type : SrecType
  byte_count : Nat
  addrBytes : List Nat
  data : List Nat
  checksum : Nat
  deriving DecidableEq, Repr

/-- The structural phase of `SrecStreamParser::parse_line`: reject a
line not starting with `'S'`, reject length below 6, read the type
digit, the byte count, check the length against `4 + byte_count * 2`,
then read the address bytes, the data bytes and the checksum byte.
The C++ data byte count `byte_count - address_bytes - 1` is `size_t`
arithmetic: when `byte_count ≤ address_bytes` it wraps to a huge
value, and the first data read, at offset `4 + 2 * address_bytes`,
already fails with the incomplete-hex error because the validated
line length `4 + 2 * byte_count` is no larger; the truncated `Nat`
subtraction instead reads zero data bytes and then fails with the
same error at the same checksum offset, so the two agree. -/
def parseStructure (line : List Char) : Except SrecErr LinePieces :=
  if line.head? ≠ some 'S' then .error (.parse .invalidFormat)
  else if line.length < 6 then .error (.parse .tooShort)
  else do
    let ty ← char_to_type (line.getD 1 ' ')
    let byte_count ← parse_hex_byte line 2
    if line.length ≠ 4 + byte_count * 2 then
      .error (.parse (.lengthMismatch (4 + byte_count * 2) line.length))
    else do
      let addrBytes ← parseBytes line 4 ty.addressBytes
      let data_bytes := byte_count - ty.addressBytes - 1
      let data ← parseBytes line (4 + 2 * ty.addressBytes) data_bytes
      let cs ← parse_hex_byte line (4 + 2 * ty.addressBytes + 2 * data_bytes)
      .ok ⟨ty, byte_count, addrBytes, data, cs⟩

/-- `SrecStreamParser::parse_line`.  The validation pass re-reads the
address bytes at the same offsets as the structural pass, which gives
the same values, so the model reuses them; `~sum & 0xFF` on the
`uint32_t` sum equals `255 - (sum % 256)`. -/
def parse_line (line : List Char) (line_number : Nat) (validate_checksum : Bool) :
    Except SrecErr ParsedRecord := do
  let p ← parseStructure line
  if validate_checksum then
    let sum := p.byte_count + p.addrBytes.sum + p.data.sum
    let calculated := 255 - (sum % 256)
    if calculated = p.checksum then
      .ok ⟨p.type, beValue p.addrBytes, p.data, p.checksum, true, line_number⟩
    else
      .error (.validation (.checksumMismatch calculated p.checksum))
  else
    .ok ⟨p.type, beValue p.addrBytes, p.data, p.checksum, true, line_number⟩

/-- `std::isspace` in the default locale (the characters `strtol`
skips). -/
def isSpaceChar (c : Char) : Bool :=
  c = ' ' ∨ c = '\t' ∨ c = '\n' ∨ c = '\x0b' ∨ c = '\x0c' ∨ c = '\r'

/-- Hexadecimal digit as `strtol` base 16 accepts. -/
def isHexDigitChar (c : Char) : Bool :=
  ('0' ≤ c ∧ c ≤ '9') ∨ ('A' ≤ c ∧ c ≤ 'F') ∨ ('a' ≤ c ∧ c ≤ 'f')

/-- Value of a hex digit character. -/
def hexCharVal (c : Char) : Nat :=
  if '0' ≤ c ∧ c ≤ '9' then c.toNat - '0'.toNat
  else if 'A' ≤ c ∧ c ≤ 'F' then c.toNat - 'A'.toNat + 10
  else c.toNat - 'a'.toNat + 10

/-- Base-16 value of a digit run. -/
def hexDigitsValue (ds : List Char) : Nat :=
  ds.foldl (fun acc c => acc * 16 + hexCharVal c) 0

/-- `std::stoi(s, nullptr, 16)` on the at-most-two-character strings
`convert_srec_to_bin` passes it: skip leading whitespace, one
optional sign, then the longest run of hex digits; an empty run is
the `std::invalid_argument` outcome (`none`).  (The `0x` prefix
`strtol` would accept needs a digit after it, which cannot fit within
two characters, so it never consumes beyond the plain digit run
here.) -/
def stoi16 (s : List Char) : Option Int :=
  match s.dropWhile (fun c => isSpaceChar c) with
  | [] => none
  | c :: rest =>
    if c = '-' then
      let ds := rest.takeWhile (fun c => isHexDigitChar c)
      if ds.isEmpty then none else some (-(hexDigitsValue ds : Int))
    else if c = '+' then
      let ds := rest.takeWhile (fun c => isHexDigitChar c)
      if ds.isEmpty then none else some ((hexDigitsValue ds : Int))
    else
      let ds := (c :: rest).takeWhile (fun c => isHexDigitChar c)
      if ds.isEmpty then none else some ((hexDigitsValue ds : Int))

/-- The decode loop of `convert_srec_to_bin`: every two characters
one `std::stoi(substr(i, 2), nullptr, 16)` cast to `uint8_t` (the
value modulo 256, nonnegative also for a negative parse); a `stoi`
failure aborts with the `std::ios_base::failure`.  A trailing odd
character is passed to `stoi` as a one-character pair, exactly as
`substr(i, 2)` yields it. -/
def decodeHexPairs : List Char → Except SrecErr (List Nat)
  | [] => .ok []
  | [c] =>
    match stoi16 [c] with
    | none => .error .failedToParseHexData
    | some v => .ok [(v % 256).toNat]
  | c1 :: c2 :: rest =>
    match stoi16 [c1, c2] with
    | none => .error .failedToParseHexData
    | some v =>
      match decodeHexPairs rest with
      | .error e => .error e
      | .ok bs => .ok ((v % 256).toNat :: bs)

/-- `convert_srec_to_bin`, over the list of input lines.  Blank
lines, lines not starting with `'S'`, and lines whose second
character is not '1'/'2'/'3' are skipped (`std::string::operator[]`
at the index equal to the size reads the null character, covering the
one-character line "S").  For a data line the fixed prefix
`'S' + type + count + address` is cut off — `substr(pos)` throws
`std::out_of_range` when `pos` exceeds the size — and the last two
characters are cut off — `substr(0, size - 2)` with `size < 2` wraps
to `npos` and keeps everything — and the rest is decoded pairwise. -/
def convert_srec_to_bin : List (List Char) → Except SrecErr (List Nat)
  | [] => .ok []
  | line :: rest =>
    if line = [] then convert_srec_to_bin rest
    else if line.headD ' ' ≠ 'S' then convert_srec_to_bin rest
    else if line.getD 1 (Char.ofNat 0) ≠ '1' ∧ line.getD 1 (Char.ofNat 0) ≠ '2' ∧
        line.getD 1 (Char.ofNat 0) ≠ '3' then
      convert_srec_to_bin rest
    else
      let alen : Nat := if line.getD 1 (Char.ofNat 0) = '1' then 2
        else if line.getD 1 (Char.ofNat 0) = '2' then 3 else 4
      if line.length < 4 + alen * 2 then .error .substrOutOfRange
      else
        let data := line.drop (4 + alen * 2)
        let data2 := if data.length < 2 then data else data.take (data.length - 2)
        match decodeHexPairs data2 with
        | .error e => .error e
        | .ok bs =>
          match convert_srec_to_bin rest with
          | .error e => .error e
          | .ok bs2 => .ok (bs ++ bs2)

/-- The read loop of `convert_bin_to_srec` / `convert_stream`, with
an explicit step bound so the recursion is structural: each iteration
consumes at least one element, so instantiating the bound with the
list length (as `chunksOf` does) never exhausts it. -/
def chunksOfAux (n : Nat) : Nat → List Nat → List (List Nat)
  | _, [] => []
  | 0, _ => []
  | fuel + 1, l => l.take n :: chunksOfAux n fuel (l.drop n)

/-- The input split into chunks of the full buffer size with a
shorter last chunk.  (A zero chunk size cannot occur: the record
capacity is at least 245.) -/
def chunksOf (n : Nat) (l : List Nat) : List (List Nat) :=
  if n = 0 then [] else chunksOfAux n l.length l

/-- The write loop: one `write_record_payload` call per chunk,
threading the session state and collecting the emitted lines. -/
def writePayloadLoop : SrecFileState → List (List Nat) → Except SrecErr (SrecFileState × List (List Char))
  | s, [] => .ok (s, [])
  | s, c :: cs => do
    let (s1, line) ← write_record_payload s c
    let (s2, lines) ← writePayloadLoop s1 cs
    .ok (s2, line :: lines)

/-- `convert_bin_to_srec` (and the identical loop of
`SrecStreamConverter::convert_stream` once `buffer_size` is clamped
to the record capacity): chunk the input, write one data record per
chunk, then the count and the termination record; when a checksum is
requested, `write_checksum` prepends one S0 record whose payload is
the big-endian CRC-32 of all payload bytes followed by a null byte
(`crc` is the external `xcrc32` collaborator, folded chunk by chunk;
the temporary file it writes through is assumed to open, an I/O
outcome).  The result is the line list of the final file. -/
def convert_bin_to_srec (crc : List Nat → Nat → Nat) (w : AddressSize) (start : Nat)
    (opened : Bool) (want_checksum : Bool) (B : List Nat) :
    Except SrecErr (List (List Char)) := do
  let chunks := chunksOf (max_data_bytes_per_record w) B
  let (s1, dataLines) ← writePayloadLoop (SrecFile.init w start opened) chunks
  let (s2, countLine) ← write_record_count s1
  let (_, termLine) ← write_record_termination s2
  let lines := dataLines ++ [countLine, termLine]
  if want_checksum then
    let sum := chunks.foldl (fun acc c => crc c acc) 0
    let s0line ← (Srec.S0 [byteAt sum 3, byteAt sum 2, byteAt sum 1, byteAt sum 0, 0]).toString
    .ok (s0line :: lines)
  else
    .ok lines

example : Srec.toString (.S1 4096 [1, 2, 3]) =
    .ok ['S', '1', '0', '6', '1', '0', '0', '0', '0', '1', '0', '2', '0', '3', 'E', '3'] := by
  decide

/-- Length of the printed byte loop: two characters per byte. -/
theorem hexBytes_length (bs : List Nat) : (hexBytes bs).length = 2 * bs.length := by
  induction bs with
  | nil => rfl
  | cons b bs ih => simp [hexBytes, hex2, ih]; ring

/-- Printing distributes over concatenation of byte lists. -/
theorem hexBytes_append (xs ys : List Nat) :
    hexBytes (xs ++ ys) = hexBytes xs ++ hexBytes ys := by
  induction xs with
  | nil => rfl
  | cons x xs ih => simp [hexBytes, ih]

/-- C2: `toString` renders a record as `'S'`, the kind digit, two
uppercase hex digits of the byte count (the address-plus-data byte
length plus one), the uppercase hex of the address-plus-data bytes,
and two hex digits of the checksum `~(len + 1 + sum) & 0xFF`; in
particular the S1 record at address 0x1000 with payload
{0x01,0x02,0x03} formats exactly as "S1061000010203E3". -/
theorem C2_toString_format :
    (∀ r : Srec, r.getRecordData.length ≤ 254 →
      Srec.toString r = .ok ('S' :: r.typeChar ::
        (hex2 (r.getRecordData.length + 1) ++ hexBytes r.getRecordData ++
          hex2 (Srec.checksumByte r.getRecordData)))) ∧
    Srec.toString (.S1 4096 [1, 2, 3]) =
      .ok ['S', '1', '0', '6', '1', '0', '0', '0', '0', '1', '0', '2', '0', '3', 'E', '3'] := by
  constructor
  · intro r h
    simp only [Srec.toString]
    rw [if_neg (by omega)]
  · decide

/-- Witness for C2 at the spec's concrete record. -/
theorem C2_toString_format_witness :
    Srec.toString (.S1 4096 [1, 2, 3]) =
      .ok ('S' :: (Srec.S1 4096 [1, 2, 3]).typeChar ::
        (hex2 ((Srec.S1 4096 [1, 2, 3]).getRecordData.length + 1) ++
          hexBytes (Srec.S1 4096 [1, 2, 3]).getRecordData ++
          hex2 (Srec.checksumByte (Srec.S1 4096 [1, 2, 3]).getRecordData))) :=
  C2_toString_format.1 (.S1 4096 [1, 2, 3]) (by decide)

/-- C9: `toString` fails with the data-too-large validation error
exactly when the combined address-plus-data bytes exceed 254, so a
successfully formatted record has total encoded byte length
(address + data + 1 checksum byte) at most 255. -/
theorem C9_toString_size_limit :
    ∀ r : Srec,
      (Srec.toString r = .error (.validation .dataTooLarge) ↔ r.getRecordData.length > 254) ∧
      (∀ line, Srec.toString r = .ok line → r.getRecordData.length + 1 ≤ 255) := by
  intro r
  constructor
  · constructor
    · intro h
      by_contra hlen
      simp only [Srec.toString] at h
      rw [if_neg hlen] at h
      exact absurd h (by simp)
    · intro h
      simp only [Srec.toString]
      rw [if_pos h]
  · intro line h
    by_contra hlen
    simp only [Srec.toString] at h
    rw [if_pos (by omega)] at h
    exact absurd h (by simp)

/-- Witness for C9 at a formatted record. -/
theorem C9_toString_size_limit_witness :
    (Srec.S1 4096 [1, 2, 3]).getRecordData.length + 1 ≤ 255 :=
  (C9_toString_size_limit (.S1 4096 [1, 2, 3])).2
    ['S', '1', '0', '6', '1', '0', '0', '0', '0', '1', '0', '2', '0', '3', 'E', '3'] (by decide)

@[simp] theorem except_bind_ok {ε : Type u} {α β : Type v} (a : α) (f : α → Except ε β) :
    ((Except.ok a : Except ε α) >>= f) = f a := rfl

@[simp] theorem except_bind_error {ε : Type u} {α β : Type v} (e : ε) (f : α → Except ε β) :
    ((Except.error e : Except ε α) >>= f) = Except.error e := rfl

theorem except_bind_eq_ok {ε : Type u} {α β : Type v} (x : Except ε α) (f : α → Except ε β)
    (b : β) : (x >>= f) = .ok b ↔ ∃ a, x = .ok a ∧ f a = .ok b := by
  cases x <;> simp

/-- A data record's address-plus-data bytes are the address field
followed by the payload. -/
theorem dataRecord_getRecordData (w : AddressSize) (a : Nat) (d : List Nat) :
    (dataRecord w a d).getRecordData = addrFieldBytes w a ++ d := by
  cases w <;> rfl

theorem addrFieldBytes_length (w : AddressSize) (a : Nat) :
    (addrFieldBytes w a).length = addrWidthBytes w := by
  cases w <;> rfl

theorem dataRecord_typeChar (w : AddressSize) (a : Nat) (d : List Nat) :
    (dataRecord w a d).typeChar = dataTypeChar w := by
  cases w <;> rfl

/-- Formatting a data record whose address-plus-data fits in 254
bytes. -/
theorem dataRecord_toString_ok (w : AddressSize) (a : Nat) (d : List Nat)
    (h : addrWidthBytes w + d.length ≤ 254) :
    (dataRecord w a d).toString =
      .ok ('S' :: dataTypeChar w ::
        (hex2 (addrWidthBytes w + d.length + 1) ++ hexBytes (addrFieldBytes w a ++ d) ++
         hex2 (Srec.checksumByte (addrFieldBytes w a ++ d)))) := by
  have hlen : (addrFieldBytes w a ++ d).length = addrWidthBytes w + d.length := by
    simp [addrFieldBytes_length]
  simp only [Srec.toString, dataRecord_getRecordData, dataRecord_typeChar, hlen]
  rw [if_neg (by omega)]

/-- Formatting a data record whose address-plus-data exceeds 254
bytes fails. -/
theorem dataRecord_toString_error (w : AddressSize) (a : Nat) (d : List Nat)
    (h : 254 < addrWidthBytes w + d.length) :
    (dataRecord w a d).toString = .error (.validation .dataTooLarge) := by
  have hlen : (addrFieldBytes w a ++ d).length = addrWidthBytes w + d.length := by
    simp [addrFieldBytes_length]
  simp only [Srec.toString, dataRecord_getRecordData, hlen]
  rw [if_pos (by omega)]

/-- In the regime the C++ reaches without wrapping — a buffer of at
most `UINT32_MAX` bytes — the `size_t` subtraction of the overflow
guard is exact. -/
theorem wrapSub_eq (len : Nat) (h : len ≤ 4294967295) :
    (4294967295 - (len : Int)) % 2 ^ 64 = 4294967295 - (len : Int) := by
  have h64 : (2 : Int) ^ 64 = 18446744073709551616 := by norm_num
  rw [h64]
  apply Int.emod_eq_of_lt <;> omega

/-- For a buffer longer than `UINT32_MAX` bytes (but `size_t`
representable) the subtraction wraps to at least `2^32`, beyond any
32-bit address, so the overflow guard cannot fire. -/
theorem wrapSub_big (len : Nat) (h1 : 4294967295 < len) (h2 : len < 2 ^ 64) :
    4294967296 ≤ (4294967295 - (len : Int)) % 2 ^ 64 := by
  have h64 : (2 : Int) ^ 64 = 18446744073709551616 := by norm_num
  have h64n : (2 : Nat) ^ 64 = 18446744073709551616 := by norm_num
  rw [h64]
  omega

/-- `write_record_payload` on a closed session. -/
theorem write_record_payload_closed (s : SrecFileState) (buffer : List Nat)
    (h : s.isOpen = false) : write_record_payload s buffer = .error .fileNotOpen := by
  unfold write_record_payload
  rw [if_pos h]

/-- `write_record_payload` at the record-count limit. -/
theorem write_record_payload_count_full (s : SrecFileState) (buffer : List Nat)
    (h1 : s.isOpen = true) (h2 : s.record_count ≥ 1000000) :
    write_record_payload s buffer = .error (.validation .dataTooLarge) := by
  unfold write_record_payload
  rw [if_neg (by simp [h1]), if_pos h2]

/-- `write_record_payload` when the buffer would overflow the 32-bit
address space. -/
theorem write_record_payload_overflow (s : SrecFileState) (buffer : List Nat)
    (h1 : s.isOpen = true) (h2 : s.record_count < 1000000)
    (h3 : 0 < buffer.length ∧
      (s.address : Int) > (4294967295 - (buffer.length : Int)) % 2 ^ 64) :
    write_record_payload s buffer =
      .error (.validation (.invalidAddress ((s.address + buffer.length) % 2 ^ 32) 4294967295)) := by
  unfold write_record_payload
  rw [if_neg (by simp [h1]), if_neg (by omega), if_pos h3]

/-- `write_record_payload` when the current address is outside the
range of the selected data record. -/
theorem write_record_payload_bad_addr (s : SrecFileState) (buffer : List Nat)
    (h1 : s.isOpen = true) (h2 : s.record_count < 1000000)
    (h3 : ¬(0 < buffer.length ∧
      (s.address : Int) > (4294967295 - (buffer.length : Int)) % 2 ^ 64))
    (h4 : dataRecordAddrOK s.address_size_bits s.address = false) :
    ∃ m, write_record_payload s buffer =
      .error (.validation (.invalidAddress s.address m)) := by
  unfold write_record_payload
  rw [if_neg (by simp [h1]), if_neg (by omega), if_neg h3]
  cases hw : s.address_size_bits
  · rw [hw] at h4
    simp only [dataRecordAddrOK, decide_eq_false_iff_not, not_le] at h4
    exact ⟨0xFFFF, by simp only [mkSrec1]; rw [if_pos h4]; rfl⟩
  · rw [hw] at h4
    simp only [dataRecordAddrOK, decide_eq_false_iff_not, not_le] at h4
    exact ⟨0xFFFFFF, by simp only [mkSrec2]; rw [if_pos h4]; rfl⟩
  · rw [hw] at h4
    simp [dataRecordAddrOK] at h4

/-- `write_record_payload` when the record would exceed 254
address-plus-data bytes. -/
theorem write_record_payload_too_large (s : SrecFileState) (buffer : List Nat)
    (h1 : s.isOpen = true) (h2 : s.record_count < 1000000)
    (h3 : ¬(0 < buffer.length ∧
      (s.address : Int) > (4294967295 - (buffer.length : Int)) % 2 ^ 64))
    (h4 : dataRecordAddrOK s.address_size_bits s.address = true)
    (h5 : 254 < addrWidthBytes s.address_size_bits + buffer.length) :
    write_record_payload s buffer = .error (.validation .dataTooLarge) := by
  unfold write_record_payload
  rw [if_neg (by simp [h1]), if_neg (by omega), if_neg h3]
  cases hw : s.address_size_bits
  all_goals rw [hw] at h4 h5
  · simp only [dataRecordAddrOK, decide_eq_true_eq] at h4
    simp only [mkSrec1]
    rw [if_neg (by omega)]
    simp only [except_bind_ok]
    have ht := dataRecord_toString_error .bits16 s.address buffer h5
    simp only [dataRecord] at ht
    rw [ht]
    rfl
  · simp only [dataRecordAddrOK, decide_eq_true_eq] at h4
    simp only [mkSrec2]
    rw [if_neg (by omega)]
    simp only [except_bind_ok]
    have ht := dataRecord_toString_error .bits24 s.address buffer h5
    simp only [dataRecord] at ht
    rw [ht]
    rfl
  · simp only [mkSrec3]
    simp only [except_bind_ok]
    have ht := dataRecord_toString_error .bits32 s.address buffer h5
    simp only [dataRecord] at ht
    rw [ht]
    rfl

/-- `write_record_payload` when every check passes: the emitted line
and the updated session state. -/
theorem write_record_payload_eq_ok (s : SrecFileState) (buffer : List Nat)
    (h1 : s.isOpen = true) (h2 : s.record_count < 1000000)
    (h3 : ¬(0 < buffer.length ∧
      (s.address : Int) > (4294967295 - (buffer.length : Int)) % 2 ^ 64))
    (h4 : dataRecordAddrOK s.address_size_bits s.address = true)
    (h5 : addrWidthBytes s.address_size_bits + buffer.length ≤ 254) :
    write_record_payload s buffer =
      .ok ({ s with record_count := s.record_count + 1,
                    address := (s.address + buffer.length) % 2 ^ 32 },
           'S' :: dataTypeChar s.address_size_bits ::
             (hex2 (addrWidthBytes s.address_size_bits + buffer.length + 1) ++
              hexBytes (addrFieldBytes s.address_size_bits s.address ++ buffer) ++
              hex2 (Srec.checksumByte (addrFieldBytes s.address_size_bits s.address ++ buffer)))) := by
  unfold write_record_payload
  rw [if_neg (by simp [h1]), if_neg (by omega), if_neg h3]
  cases hw : s.address_size_bits
  all_goals rw [hw] at h4 h5
  · simp only [dataRecordAddrOK, decide_eq_true_eq] at h4
    simp only [mkSrec1]
    rw [if_neg (by omega)]
    simp only [except_bind_ok]
    have ht := dataRecord_toString_ok .bits16 s.address buffer h5
    simp only [dataRecord] at ht
    rw [ht]
    rfl
  · simp only [dataRecordAddrOK, decide_eq_true_eq] at h4
    simp only [mkSrec2]
    rw [if_neg (by omega)]
    simp only [except_bind_ok]
    have ht := dataRecord_toString_ok .bits24 s.address buffer h5
    simp only [dataRecord] at ht
    rw [ht]
    rfl
  · simp only [mkSrec3]
    simp only [except_bind_ok]
    have ht := dataRecord_toString_ok .bits32 s.address buffer h5
    simp only [dataRecord] at ht
    rw [ht]
    rfl

theorem except_map_eq_ok {ε : Type u} {α β : Type v} (x : Except ε α) (f : α → β) (b : β) :
    (x.map f) = .ok b ↔ ∃ a, x = .ok a ∧ f a = b := by
  cases x <;> simp [Except.map]

/-- Full inversion of a successful `write_record_payload`. -/
theorem write_record_payload_ok_inv (s : SrecFileState) (buffer : List Nat)
    (s' : SrecFileState) (line : List Char)
    (h : write_record_payload s buffer = .ok (s', line)) :
    s.isOpen = true ∧ s.record_count < 1000000 ∧
    ¬(0 < buffer.length ∧
      (s.address : Int) > (4294967295 - (buffer.length : Int)) % 2 ^ 64) ∧
    dataRecordAddrOK s.address_size_bits s.address = true ∧
    addrWidthBytes s.address_size_bits + buffer.length ≤ 254 ∧
    s' = { s with record_count := s.record_count + 1,
                  address := (s.address + buffer.length) % 2 ^ 32 } ∧
    line = 'S' :: dataTypeChar s.address_size_bits ::
      (hex2 (addrWidthBytes s.address_size_bits + buffer.length + 1) ++
       hexBytes (addrFieldBytes s.address_size_bits s.address ++ buffer) ++
       hex2 (Srec.checksumByte (addrFieldBytes s.address_size_bits s.address ++ buffer))) := by
  by_cases h1 : s.isOpen = false
  · rw [write_record_payload_closed s buffer h1] at h
    exact absurd h (by simp)
  have h1' : s.isOpen = true := by revert h1; cases s.isOpen <;> simp
  by_cases h2 : s.record_count ≥ 1000000
  · rw [write_record_payload_count_full s buffer h1' h2] at h
    exact absurd h (by simp)
  by_cases h3 : 0 < buffer.length ∧
      (s.address : Int) > (4294967295 - (buffer.length : Int)) % 2 ^ 64
  · rw [write_record_payload_overflow s buffer h1' (by omega) h3] at h
    exact absurd h (by simp)
  by_cases h4 : dataRecordAddrOK s.address_size_bits s.address = true
  case neg =>
    have h4' : dataRecordAddrOK s.address_size_bits s.address = false := by
      revert h4; cases dataRecordAddrOK s.address_size_bits s.address <;> simp
    obtain ⟨m, hm⟩ := write_record_payload_bad_addr s buffer h1' (by omega) h3 h4'
    rw [hm] at h
    exact absurd h (by simp)
  by_cases h5 : addrWidthBytes s.address_size_bits + buffer.length ≤ 254
  case neg =>
    rw [write_record_payload_too_large s buffer h1' (by omega) h3 h4 (by omega)] at h
    exact absurd h (by simp)
  rw [write_record_payload_eq_ok s buffer h1' (by omega) h3 h4 h5] at h
  simp only [Except.ok.injEq, Prod.mk.injEq] at h
  exact ⟨h1', by omega, h3, h4, h5, h.1.symm, h.2.symm⟩

/-- C3 counterexample: for 16-bit addressing the code returns 249,
but 255 minus 1 (count byte) minus the address width in bytes (2)
minus 1 (checksum byte) is 251, so the claim's formula does not match
the returned values. -/
theorem C3_capacity_cex :
    max_data_bytes_per_record .bits16 = 249 ∧ 255 - 1 - 2 - 1 = 251 ∧
    max_data_bytes_per_record .bits16 ≠ 255 - 1 - 2 - 1 := by
  decide

/-- C3 (amended): `max_data_bytes_per_record` equals 255 minus 1
(count byte) minus the address field width in hex characters (twice
the address width in bytes) minus 1 (checksum byte), giving 249, 247
and 245 for 16-, 24- and 32-bit addressing; and a successful
`write_record_payload` on a buffer of at most that size emits a line
whose declared byte count is at most 255. -/
theorem C3_capacity :
    (∀ w, max_data_bytes_per_record w = 255 - 1 - 2 * addrWidthBytes w - 1) ∧
    max_data_bytes_per_record .bits16 = 249 ∧
    max_data_bytes_per_record .bits24 = 247 ∧
    max_data_bytes_per_record .bits32 = 245 ∧
    (∀ s buffer s' line,
      buffer.length ≤ max_data_bytes_per_record s.address_size_bits →
      write_record_payload s buffer = .ok (s', line) →
      addrWidthBytes s.address_size_bits + buffer.length + 1 ≤ 255 ∧
      ∃ tail, line = 'S' :: dataTypeChar s.address_size_bits ::
        (hex2 (addrWidthBytes s.address_size_bits + buffer.length + 1) ++ tail)) := by
  refine ⟨fun w => by cases w <;> rfl, rfl, rfl, rfl, ?_⟩
  intro s buffer s' line hlen h
  obtain ⟨-, -, -, -, h5, -, hline⟩ := write_record_payload_ok_inv s buffer s' line h
  exact ⟨by omega,
    hexBytes (addrFieldBytes s.address_size_bits s.address ++ buffer) ++
      hex2 (Srec.checksumByte (addrFieldBytes s.address_size_bits s.address ++ buffer)),
    by rw [hline, List.append_assoc]⟩

/-- Witness for C3 on a 3-byte buffer in a fresh 16-bit session. -/
theorem C3_capacity_witness :
    addrWidthBytes (SrecFile.init .bits16 0 true).address_size_bits + ([1, 2, 3] : List Nat).length + 1 ≤ 255 ∧
    ∃ tail, ['S', '1', '0', '6', '0', '0', '0', '0', '0', '1', '0', '2', '0', '3', 'F', '3'] =
      'S' :: dataTypeChar (SrecFile.init .bits16 0 true).address_size_bits ::
        (hex2 (addrWidthBytes (SrecFile.init .bits16 0 true).address_size_bits +
          ([1, 2, 3] : List Nat).length + 1) ++ tail) :=
  C3_capacity.2.2.2.2 (SrecFile.init .bits16 0 true) [1, 2, 3]
    ⟨true, 3, 0, .bits16, 1⟩
    ['S', '1', '0', '6', '0', '0', '0', '0', '0', '1', '0', '2', '0', '3', 'F', '3']
    (by decide) (by decide)

set_option maxRecDepth 4000 in
/-- C4 counterexample: an open fresh 16-bit session with current
address 0 and a 255-byte buffer satisfies none of the claim's three
failure conditions, yet `write_record_payload` fails (the record's
address-plus-data bytes exceed 254). -/
theorem C4_payload_cex :
    write_record_payload ⟨true, 0, 0, .bits16, 0⟩ (List.replicate 255 0) =
      .error (.validation .dataTooLarge) ∧
    (⟨true, 0, 0, .bits16, 0⟩ : SrecFileState).isOpen = true ∧
    (⟨true, 0, 0, .bits16, 0⟩ : SrecFileState).record_count < 1000000 ∧
    (⟨true, 0, 0, .bits16, 0⟩ : SrecFileState).address +
      (List.replicate 255 (0 : Nat)).length < 2 ^ 32 := by
  decide

/-- C4 (amended): for a session whose current address is a 32-bit
value, `write_record_payload(buffer)` succeeds exactly when the file
is open, the record count is below 1'000'000, the address plus the
buffer length stays within the 32-bit space, the current address fits
the width's data record (at most 0xFFFF for 16-bit, 0xFFFFFF for
24-bit), and the address field plus the buffer is at most 254 bytes.
A closed file and an exhausted record count fail with their claimed
error kinds; a 32-bit overflow of `address + len` fails with the
address error only for buffers of at most 0xFFFFFFFF bytes — for a
longer (still `size_t`-representable) buffer the wrapped guard never
fires and the call fails with the data-too-large validation error
instead.  On success one S1/S2/S3 record at the current address is
written, the address advances by the buffer length and the record
count by one. -/
theorem C4_payload :
    ∀ s buffer, s.address < 2 ^ 32 →
      ((∃ s' line, write_record_payload s buffer = .ok (s', line)) ↔
        (s.isOpen = true ∧ s.record_count < 1000000 ∧
         s.address + buffer.length < 2 ^ 32 ∧
         dataRecordAddrOK s.address_size_bits s.address = true ∧
         addrWidthBytes s.address_size_bits + buffer.length ≤ 254)) ∧
      (s.isOpen = false → write_record_payload s buffer = .error .fileNotOpen) ∧
      (s.isOpen = true → 1000000 ≤ s.record_count →
        write_record_payload s buffer = .error (.validation .dataTooLarge)) ∧
      (s.isOpen = true → s.record_count < 1000000 → 0 < buffer.length →
        buffer.length ≤ 4294967295 → 2 ^ 32 ≤ s.address + buffer.length →
        write_record_payload s buffer =
          .error (.validation (.invalidAddress ((s.address + buffer.length) % 2 ^ 32)
            (2 ^ 32 - 1)))) ∧
      (s.isOpen = true → s.record_count < 1000000 → 4294967295 < buffer.length →
        buffer.length < 2 ^ 64 → dataRecordAddrOK s.address_size_bits s.address = true →
        write_record_payload s buffer = .error (.validation .dataTooLarge)) ∧
      (∀ s' line, write_record_payload s buffer = .ok (s', line) →
        s'.address = s.address + buffer.length ∧
        s'.record_count = s.record_count + 1 ∧
        s'.exec_address = s.exec_address ∧
        s'.isOpen = s.isOpen ∧
        s'.address_size_bits = s.address_size_bits ∧
        (dataRecord s.address_size_bits s.address buffer).toString = .ok line) := by
  intro s buffer haddr
  have hpow : (2 : Nat) ^ 32 = 4294967296 := by norm_num
  have haw : 2 ≤ addrWidthBytes s.address_size_bits := by
    cases s.address_size_bits <;> simp [addrWidthBytes]
  refine ⟨?_, ?_, ?_, ?_, ?_, ?_⟩
  · constructor
    · rintro ⟨s', line, h⟩
      obtain ⟨h1, h2, h3, h4, h5, -, -⟩ := write_record_payload_ok_inv s buffer s' line h
      refine ⟨h1, h2, ?_, h4, h5⟩
      rcases Nat.eq_zero_or_pos buffer.length with h0 | hpos
      · omega
      · have hsm : buffer.length ≤ 4294967295 := by omega
        have h3' : ¬((s.address : Int) > (4294967295 - (buffer.length : Int)) % 2 ^ 64) :=
          fun hgt => h3 ⟨hpos, hgt⟩
        rw [wrapSub_eq buffer.length hsm] at h3'
        omega
    · rintro ⟨h1, h2, h3, h4, h5⟩
      refine ⟨_, _, write_record_payload_eq_ok s buffer h1 h2 ?_ h4 h5⟩
      rintro ⟨hpos, hgt⟩
      rw [wrapSub_eq buffer.length (by omega)] at hgt
      omega
  · exact write_record_payload_closed s buffer
  · exact fun h1 h2 => write_record_payload_count_full s buffer h1 h2
  · intro h1 h2 hpos hsm hover
    have := write_record_payload_overflow s buffer h1 h2
      ⟨hpos, by rw [wrapSub_eq buffer.length hsm]; omega⟩
    rw [this]
    norm_num
  · intro h1 h2 hbig hlt h4
    apply write_record_payload_too_large s buffer h1 h2 ?_ h4 (by omega)
    rintro ⟨-, hgt⟩
    have hv := wrapSub_big buffer.length hbig hlt
    omega
  · intro s' line h
    obtain ⟨h1, h2, h3, h4, h5, hs, hline⟩ := write_record_payload_ok_inv s buffer s' line h
    have hnw : (s.address + buffer.length) % 2 ^ 32 = s.address + buffer.length := by
      apply Nat.mod_eq_of_lt
      rcases Nat.eq_zero_or_pos buffer.length with h0 | hpos
      · omega
      · have hsm : buffer.length ≤ 4294967295 := by omega
        have h3' : ¬((s.address : Int) > (4294967295 - (buffer.length : Int)) % 2 ^ 64) :=
          fun hgt => h3 ⟨hpos, hgt⟩
        rw [wrapSub_eq buffer.length hsm] at h3'
        omega
    subst hs
    refine ⟨hnw, rfl, rfl, rfl, rfl, ?_⟩
    rw [dataRecord_toString_ok s.address_size_bits s.address buffer h5, hline]

/-- Witness for C4: a 3-byte buffer in a fresh open 16-bit session
satisfies the success conditions. -/
theorem C4_payload_witness :
    ∃ s' line, write_record_payload (SrecFile.init .bits16 0 true) [1, 2, 3] = .ok (s', line) :=
  (C4_payload (SrecFile.init .bits16 0 true) [1, 2, 3] (by decide)).1.mpr (by decide)

/-- An S5 record always formats (its record data is two bytes). -/
theorem s5_toString (c : Nat) :
    (Srec.S5 c).toString =
      .ok ('S' :: '5' :: (hex2 3 ++ hexBytes [byteAt c 1, byteAt c 0] ++
        hex2 (Srec.checksumByte [byteAt c 1, byteAt c 0]))) := rfl

/-- An S6 record always formats (its record data is three bytes). -/
theorem s6_toString (c : Nat) :
    (Srec.S6 c).toString =
      .ok ('S' :: '6' :: (hex2 4 ++ hexBytes [byteAt c 2, byteAt c 1, byteAt c 0] ++
        hex2 (Srec.checksumByte [byteAt c 2, byteAt c 1, byteAt c 0]))) := rfl

/-- `write_record_count` in the S5 regime. -/
theorem write_record_count_s5 (s : SrecFileState) (hopen : s.isOpen = true)
    (h : s.record_count ≤ 0xFFFF) :
    write_record_count s =
      .ok (s, 'S' :: '5' :: (hex2 3 ++
        hexBytes [byteAt s.record_count 1, byteAt s.record_count 0] ++
        hex2 (Srec.checksumByte [byteAt s.record_count 1, byteAt s.record_count 0]))) := by
  unfold write_record_count
  rw [if_neg (by simp [hopen]), if_neg (by omega), if_pos h]
  simp only [mkSrec5]
  rw [if_neg (by omega)]
  simp only [except_bind_ok]
  rw [s5_toString]
  rfl

/-- `write_record_count` in the S6 regime. -/
theorem write_record_count_s6 (s : SrecFileState) (hopen : s.isOpen = true)
    (h1 : 0xFFFF < s.record_count) (h2 : s.record_count ≤ 0xFFFFFF) :
    write_record_count s =
      .ok (s, 'S' :: '6' :: (hex2 4 ++
        hexBytes [byteAt s.record_count 2, byteAt s.record_count 1, byteAt s.record_count 0] ++
        hex2 (Srec.checksumByte
          [byteAt s.record_count 2, byteAt s.record_count 1, byteAt s.record_count 0]))) := by
  unfold write_record_count
  rw [if_neg (by simp [hopen]), if_neg (by omega), if_neg (by omega)]
  simp only [mkSrec6]
  rw [if_neg (by omega)]
  simp only [except_bind_ok]
  rw [s6_toString]
  rfl

/-- `write_record_count` above the 24-bit limit. -/
theorem write_record_count_err (s : SrecFileState) (hopen : s.isOpen = true)
    (h : 0xFFFFFF < s.record_count) :
    write_record_count s = .error (.validation .dataTooLarge) := by
  unfold write_record_count
  rw [if_neg (by simp [hopen]), if_pos (by omega)]

/-- C7: on an open session, `write_record_count` emits an S5 record
exactly when the record count is at most 0xFFFF, emits an S6 record
exactly when the count is in (0xFFFF, 0xFFFFFF], and fails with a
validation error exactly when the count exceeds 0xFFFFFF. -/
theorem C7_count_selection :
    ∀ s : SrecFileState, s.isOpen = true →
      ((∃ line, write_record_count s = .ok (s, line) ∧
          (Srec.S5 s.record_count).toString = .ok line) ↔ s.record_count ≤ 0xFFFF) ∧
      ((∃ line, write_record_count s = .ok (s, line) ∧
          (Srec.S6 s.record_count).toString = .ok line) ↔
        (0xFFFF < s.record_count ∧ s.record_count ≤ 0xFFFFFF)) ∧
      ((∃ e, write_record_count s = .error e) ↔ 0xFFFFFF < s.record_count) ∧
      (0xFFFFFF < s.record_count →
        write_record_count s = .error (.validation .dataTooLarge)) := by
  intro s hopen
  rcases le_or_lt s.record_count 0xFFFF with hle | hgt
  · have hw := write_record_count_s5 s hopen hle
    refine ⟨⟨fun _ => hle, fun _ => ⟨_, hw, s5_toString s.record_count⟩⟩, ?_, ?_, ?_⟩
    · constructor
      · rintro ⟨line, hok, hts6⟩
        rw [hw] at hok
        simp only [Except.ok.injEq, Prod.mk.injEq] at hok
        rw [s6_toString, ← hok.2] at hts6
        simp only [Except.ok.injEq] at hts6
        have h56 := (List.cons.inj (List.cons.inj hts6).2).1
        exact absurd h56 (by decide)
      · rintro ⟨hgt', -⟩
        omega
    · constructor
      · rintro ⟨e, he⟩
        rw [hw] at he
        exact absurd he (by simp)
      · intro h
        omega
    · intro h
      omega
  rcases le_or_lt s.record_count 0xFFFFFF with hle2 | hgt2
  · have hw := write_record_count_s6 s hopen hgt hle2
    refine ⟨?_, ⟨fun _ => ⟨hgt, hle2⟩, fun _ => ⟨_, hw, s6_toString s.record_count⟩⟩, ?_, ?_⟩
    · constructor
      · rintro ⟨line, hok, hts5⟩
        rw [hw] at hok
        simp only [Except.ok.injEq, Prod.mk.injEq] at hok
        rw [s5_toString, ← hok.2] at hts5
        simp only [Except.ok.injEq] at hts5
        have h56 := (List.cons.inj (List.cons.inj hts5).2).1
        exact absurd h56 (by decide)
      · intro h
        omega
    · constructor
      · rintro ⟨e, he⟩
        rw [hw] at he
        exact absurd he (by simp)
      · intro h
        omega
    · intro h
      omega
  · have hw := write_record_count_err s hopen hgt2
    refine ⟨?_, ?_, ⟨fun _ => hgt2, fun _ => ⟨_, hw⟩⟩, fun _ => hw⟩
    · constructor
      · rintro ⟨line, hok, -⟩
        rw [hw] at hok
        exact absurd hok (by simp)
      · intro h
        omega
    · constructor
      · rintro ⟨line, hok, -⟩
        rw [hw] at hok
        exact absurd hok (by simp)
      · rintro ⟨-, h2⟩
        omega

/-- Witness for C7 on a fresh open session (record count zero). -/
theorem C7_count_selection_witness :
    ∃ line, write_record_count (SrecFile.init .bits16 0 true) =
        .ok (SrecFile.init .bits16 0 true, line) ∧
      (Srec.S5 (SrecFile.init .bits16 0 true).record_count).toString = .ok line :=
  ((C7_count_selection (SrecFile.init .bits16 0 true) rfl).1).mpr (by decide)

/-- `write_record_count` never changes the session state. -/
theorem write_record_count_state (s s' : SrecFileState) (l : List Char)
    (h : write_record_count s = .ok (s', l)) : s' = s := by
  by_cases h1 : s.isOpen = false
  · unfold write_record_count at h
    rw [if_pos h1] at h
    exact absurd h (by simp)
  by_cases h2 : s.record_count > 0xFFFFFF
  · unfold write_record_count at h
    rw [if_neg h1, if_pos h2] at h
    exact absurd h (by simp)
  unfold write_record_count at h
  rw [if_neg h1, if_neg h2] at h
  by_cases h3 : s.record_count ≤ 0xFFFF
  · rw [if_pos h3] at h
    simp only [except_bind_eq_ok, Except.ok.injEq, Prod.mk.injEq] at h
    obtain ⟨r, -, line, -, hs, -⟩ := h
    exact hs.symm
  · rw [if_neg h3] at h
    simp only [except_bind_eq_ok, Except.ok.injEq, Prod.mk.injEq] at h
    obtain ⟨r, -, line, -, hs, -⟩ := h
    exact hs.symm

/-- Inversion of a successful `write_record_termination`: the state is
unchanged and the line is the formatted termination record of the
configured width carrying the execution address. -/
theorem write_record_termination_ok (s s' : SrecFileState) (line : List Char)
    (h : write_record_termination s = .ok (s', line)) :
    s' = s ∧ (termRecord s.address_size_bits s.exec_address).toString = .ok line := by
  by_cases h1 : s.isOpen = false
  · unfold write_record_termination at h
    rw [if_pos h1] at h
    exact absurd h (by simp)
  unfold write_record_termination at h
  rw [if_neg h1] at h
  simp only [except_bind_eq_ok, Except.ok.injEq, Prod.mk.injEq] at h
  obtain ⟨r, hr, l2, hl2, hss, hll⟩ := h
  subst hll
  refine ⟨hss.symm, ?_⟩
  cases hw : s.address_size_bits
  all_goals rw [hw] at hr
  · simp only [mkSrec9] at hr
    by_cases ha : s.exec_address > 0xFFFF
    · rw [if_pos ha] at hr
      exact absurd hr (by simp)
    · rw [if_neg ha] at hr
      simp only [Except.ok.injEq] at hr
      simp only [termRecord]
      rw [hr]
      exact hl2
  · simp only [mkSrec8] at hr
    by_cases ha : s.exec_address > 0xFFFFFF
    · rw [if_pos ha] at hr
      exact absurd hr (by simp)
    · rw [if_neg ha] at hr
      simp only [Except.ok.injEq] at hr
      simp only [termRecord]
      rw [hr]
      exact hl2
  · simp only [mkSrec7, Except.ok.injEq] at hr
    simp only [termRecord]
    rw [hr]
    exact hl2

/-- `write_header_strings` never changes the session state. -/
theorem write_header_strings_state (s s' : SrecFileState) (hs : List (List Nat))
    (ls : List (List Char)) (h : write_header_strings s hs = .ok (s', ls)) : s' = s := by
  by_cases h1 : s.isOpen = false
  · unfold write_header_strings at h
    rw [if_pos h1] at h
    exact absurd h (by simp)
  unfold write_header_strings at h
  rw [if_neg h1] at h
  simp only [except_bind_eq_ok, Except.ok.injEq, Prod.mk.injEq] at h
  obtain ⟨lines, -, hs2, -⟩ := h
  exact hs2.symm

/-- `write_header_bytes` never changes the session state. -/
theorem write_header_bytes_state (s s' : SrecFileState) (hd : List Nat)
    (l : List Char) (h : write_header_bytes s hd = .ok (s', l)) : s' = s := by
  by_cases h1 : s.isOpen = false
  · unfold write_header_bytes at h
    rw [if_pos h1] at h
    exact absurd h (by simp)
  unfold write_header_bytes at h
  rw [if_neg h1] at h
  simp only [except_bind_eq_ok, Except.ok.injEq, Prod.mk.injEq] at h
  obtain ⟨line, -, hs2, -⟩ := h
  exact hs2.symm

/-- No session operation changes the execution address or the
configured address size (there is no setter for either). -/
theorem applyFileOp_preserves (s : SrecFileState) (op : FileOp) (s' : SrecFileState)
    (ls : List (List Char)) (h : applyFileOp s op = .ok (s', ls)) :
    s'.exec_address = s.exec_address ∧ s'.address_size_bits = s.address_size_bits := by
  cases op
  case headerStrings hs =>
    simp only [applyFileOp] at h
    rw [write_header_strings_state s s' hs ls h]
    exact ⟨rfl, rfl⟩
  case headerBytes hd =>
    simp only [applyFileOp] at h
    rw [except_map_eq_ok] at h
    obtain ⟨⟨s1, l⟩, h1, h2⟩ := h
    simp only [Prod.mk.injEq] at h2
    rw [← h2.1, write_header_bytes_state s s1 hd l h1]
    exact ⟨rfl, rfl⟩
  case payload b =>
    simp only [applyFileOp] at h
    rw [except_map_eq_ok] at h
    obtain ⟨⟨s1, l⟩, h1, h2⟩ := h
    simp only [Prod.mk.injEq] at h2
    obtain ⟨-, -, -, -, -, hs, -⟩ := write_record_payload_ok_inv s b s1 l h1
    rw [← h2.1, hs]
    exact ⟨rfl, rfl⟩
  case count =>
    simp only [applyFileOp] at h
    rw [except_map_eq_ok] at h
    obtain ⟨⟨s1, l⟩, h1, h2⟩ := h
    simp only [Prod.mk.injEq] at h2
    rw [← h2.1, write_record_count_state s s1 l h1]
    exact ⟨rfl, rfl⟩
  case termination =>
    simp only [applyFileOp] at h
    rw [except_map_eq_ok] at h
    obtain ⟨⟨s1, l⟩, h1, h2⟩ := h
    simp only [Prod.mk.injEq] at h2
    rw [← h2.1, (write_record_termination_ok s s1 l h1).1]
    exact ⟨rfl, rfl⟩
  case closeOp =>
    simp only [applyFileOp, Except.ok.injEq, Prod.mk.injEq] at h
    rw [← h.1]
    exact ⟨rfl, rfl⟩

/-- Along any successful operation sequence the execution address and
address size are those the session was created with. -/
theorem runFileOps_preserves (ops : List FileOp) :
    ∀ (s s' : SrecFileState) (ls : List (List Char)),
      runFileOps s ops = .ok (s', ls) →
      s'.exec_address = s.exec_address ∧ s'.address_size_bits = s.address_size_bits := by
  induction ops with
  | nil =>
    intro s s' ls h
    simp only [runFileOps, Except.ok.injEq, Prod.mk.injEq] at h
    rw [← h.1]
    exact ⟨rfl, rfl⟩
  | cons op ops ih =>
    intro s s' ls h
    simp only [runFileOps] at h
    rw [except_bind_eq_ok] at h
    obtain ⟨⟨s1, ls1⟩, h1, h⟩ := h
    rw [except_bind_eq_ok] at h
    obtain ⟨⟨s2, ls2⟩, h2, h⟩ := h
    simp only [Except.ok.injEq, Prod.mk.injEq] at h
    obtain ⟨hop1, hop2⟩ := applyFileOp_preserves s op s1 ls1 h1
    obtain ⟨hr1, hr2⟩ := ih s1 s2 ls2 h2
    rw [← h.1]
    exact ⟨hr1.trans hop1, hr2.trans hop2⟩

/-- C10: the execution address is set to the start address at
construction, no session operation modifies it, and a successful
`write_record_termination` after any successful operation sequence
emits the termination record of the configured width carrying exactly
the start address. -/
theorem C10_exec_address_invariant :
    ∀ (w : AddressSize) (start : Nat) (opened : Bool) (ops : List FileOp)
      (s1 : SrecFileState) (outs : List (List Char)),
      runFileOps (SrecFile.init w start opened) ops = .ok (s1, outs) →
      s1.exec_address = start ∧
      ∀ s2 line, write_record_termination s1 = .ok (s2, line) →
        (termRecord w start).toString = .ok line := by
  intro w start opened ops s1 outs h
  obtain ⟨hexec, hwidth⟩ := runFileOps_preserves ops (SrecFile.init w start opened) s1 outs h
  have hinit_e : (SrecFile.init w start opened).exec_address = start := rfl
  have hinit_w : (SrecFile.init w start opened).address_size_bits = w := rfl
  refine ⟨by rw [hexec, hinit_e], ?_⟩
  intro s2 line hterm
  have hts := (write_record_termination_ok s1 s2 line hterm).2
  rwa [hwidth, hinit_w, hexec, hinit_e] at hts

/-- Witness for C10: an empty operation sequence on a fresh 16-bit
session created at start address 5; the termination record carries 5. -/
theorem C10_exec_address_invariant_witness :
    (termRecord .bits16 5).toString =
      .ok ['S', '9', '0', '3', '0', '0', '0', '5', 'F', '7'] :=
  (C10_exec_address_invariant .bits16 5 true [] (SrecFile.init .bits16 5 true) [] rfl).2
    (SrecFile.init .bits16 5 true) ['S', '9', '0', '3', '0', '0', '0', '5', 'F', '7']
    (by decide)

example : parseStructure ['S', '1', '0', '6', '1', '0', '0', '0', '0', '1', '0', '2', '0', '3', 'E', '3'] =
    .ok ⟨.s1, 6, [16, 0], [1, 2, 3], 227⟩ := by decide

/-- C5: on a structurally well-formed line, `parse_line` with
validation recomputes `~(byte_count + sum(address bytes) +
sum(data bytes)) & 0xFF` and raises a checksum-mismatch validation
error carrying the expected and actual values exactly when it differs
from the declared checksum; without validation the record is returned
marked `checksum_valid = true` unconditionally; parsing
"S1061000010203E3" with validation succeeds with
`checksum_valid = true`. -/
theorem C5_checksum_validation :
    (∀ line ln p, parseStructure line = .ok p →
      parse_line line ln false = .ok ⟨p.type, beValue p.addrBytes, p.data, p.checksum, true, ln⟩ ∧
      (255 - ((p.byte_count + p.addrBytes.sum + p.data.sum) % 256) = p.checksum →
        parse_line line ln true =
          .ok ⟨p.type, beValue p.addrBytes, p.data, p.checksum, true, ln⟩) ∧
      (255 - ((p.byte_count + p.addrBytes.sum + p.data.sum) % 256) ≠ p.checksum →
        parse_line line ln true = .error (.validation (.checksumMismatch
          (255 - ((p.byte_count + p.addrBytes.sum + p.data.sum) % 256)) p.checksum)))) ∧
    parse_line ['S', '1', '0', '6', '1', '0', '0', '0', '0', '1', '0', '2', '0', '3', 'E', '3']
        1 true = .ok ⟨.s1, 4096, [1, 2, 3], 227, true, 1⟩ := by
  constructor
  · intro line ln p hp
    unfold parse_line
    rw [hp]
    simp only [except_bind_ok]
    refine ⟨rfl, fun he => ?_, fun hne => ?_⟩
    · rw [if_pos trivial, if_pos he]
    · rw [if_pos trivial, if_neg hne]
  · decide

/-- Witness for C5 at the spec's concrete line. -/
theorem C5_checksum_validation_witness :
    parse_line ['S', '1', '0', '6', '1', '0', '0', '0', '0', '1', '0', '2', '0', '3', 'E', '3']
      1 false = .ok ⟨.s1, 4096, [1, 2, 3], 227, true, 1⟩ :=
  (C5_checksum_validation.1
    ['S', '1', '0', '6', '1', '0', '0', '0', '0', '1', '0', '2', '0', '3', 'E', '3'] 1
    ⟨.s1, 6, [16, 0], [1, 2, 3], 227⟩ (by decide)).1

/-- C6 counterexample: "S4060000" has an invalid type digit '4' and a
length (8) different from 4 + byte_count * 2 (16), yet `parse_line`
raises the invalid-type parse error, not a length-mismatch error. -/
theorem C6_structural_cex :
    parse_line ['S', '4', '0', '6', '0', '0', '0', '0'] 1 true =
      .error (.parse (.invalidType '4')) ∧
    (['S', '4', '0', '6', '0', '0', '0', '0'] : List Char).length ≠ 4 + 6 * 2 ∧
    parse_hex_byte ['S', '4', '0', '6', '0', '0', '0', '0'] 2 = .ok 6 ∧
    ∀ e a, parse_line ['S', '4', '0', '6', '0', '0', '0', '0'] 1 true ≠
      .error (.parse (.lengthMismatch e a)) := by
  have h1 : parse_line ['S', '4', '0', '6', '0', '0', '0', '0'] 1 true =
      .error (.parse (.invalidType '4')) := by decide
  refine ⟨h1, by decide, by decide, fun e a hc => ?_⟩
  rw [h1] at hc
  simp at hc

/-- C6 (amended): `parse_line` rejects a line whose first character
is not 'S' with a format parse error, rejects a line shorter than 6
characters with a too-short parse error, and, provided the type digit
is one of the nine valid digits and the count field is two hex
characters, rejects a line whose length differs from
`4 + byte_count * 2` with a length-mismatch parse error naming the
expected and actual lengths. -/
theorem C6_structural_validation :
    (∀ line ln v, line.head? ≠ some 'S' →
      parse_line line ln v = .error (.parse .invalidFormat)) ∧
    (∀ line ln v, line.head? = some 'S' → line.length < 6 →
      parse_line line ln v = .error (.parse .tooShort)) ∧
    (∀ line ln v ty bc, line.head? = some 'S' → ¬line.length < 6 →
      char_to_type (line.getD 1 ' ') = .ok ty →
      parse_hex_byte line 2 = .ok bc →
      line.length ≠ 4 + bc * 2 →
      parse_line line ln v = .error (.parse (.lengthMismatch (4 + bc * 2) line.length))) := by
  refine ⟨?_, ?_, ?_⟩
  · intro line ln v h
    unfold parse_line parseStructure
    rw [if_pos h]
    rfl
  · intro line ln v h1 h2
    unfold parse_line parseStructure
    rw [if_neg (by simp [h1]), if_pos h2]
    rfl
  · intro line ln v ty bc h1 h2 hty hbc hne
    unfold parse_line parseStructure
    rw [if_neg (by simp [h1]), if_neg h2, hty]
    simp only [except_bind_ok]
    rw [hbc]
    simp only [except_bind_ok]
    rw [if_pos hne]
    rfl

/-- Witness for C6 on lines exercising all three rejections. -/
theorem C6_structural_validation_witness :
    parse_line ['X'] 1 true = .error (.parse .invalidFormat) ∧
    parse_line ['S', '1', '0', '5'] 1 true = .error (.parse .tooShort) ∧
    parse_line ['S', '1', '0', '6', '0', '0'] 1 true =
      .error (.parse (.lengthMismatch 16 6)) :=
  ⟨C6_structural_validation.1 ['X'] 1 true (by decide),
   C6_structural_validation.2.1 ['S', '1', '0', '5'] 1 true (by decide) (by decide),
   C6_structural_validation.2.2 ['S', '1', '0', '6', '0', '0'] 1 true .s1 6
     (by decide) (by decide) (by decide) (by decide) (by decide)⟩

/-- C8 counterexample: the data record line "S10400000GFF" carries
the malformed hex pair "0G", yet the decode succeeds (with byte 0x00)
instead of aborting: `std::stoi` parses the leading digit and ignores
the rest of the pair. -/
theorem C8_decode_cex :
    convert_srec_to_bin [['S', '1', '0', '4', '0', '0', '0', '0', '0', 'G', 'F', 'F']] =
      .ok [0] ∧
    isHexDigitChar 'G' = false := by
  decide

/-- C8 (amended): blank lines, lines not starting with 'S', and lines
whose type digit is not 1, 2 or 3 are silently skipped; a line on
which the decode fails aborts the whole conversion with that error
(no bad line is skipped); a pair from which `stoi` can extract no
number — its first character neither a hex digit nor a sign or space
— aborts the decode, while a pair whose first character is a hex
digit is accepted even if its second character is malformed. -/
theorem C8_decode_strictness :
    (∀ line rest, (line = [] ∨ line.headD ' ' ≠ 'S' ∨
        (line.getD 1 (Char.ofNat 0) ≠ '1' ∧ line.getD 1 (Char.ofNat 0) ≠ '2' ∧
         line.getD 1 (Char.ofNat 0) ≠ '3')) →
      convert_srec_to_bin (line :: rest) = convert_srec_to_bin rest) ∧
    (∀ line rest e, convert_srec_to_bin [line] = .error e →
      convert_srec_to_bin (line :: rest) = .error e) ∧
    (∀ data, data ≠ [] → stoi16 (data.take 2) = none →
      decodeHexPairs data = .error .failedToParseHexData) ∧
    (∀ c1 c2 : Char, isHexDigitChar c1 = false → isSpaceChar c1 = false →
      c1 ≠ '+' → c1 ≠ '-' → stoi16 [c1, c2] = none) ∧
    (∀ c1 c2 : Char, isHexDigitChar c1 = true → stoi16 [c1, c2] ≠ none) := by
  refine ⟨?_, ?_, ?_, ?_, ?_⟩
  · intro line rest h
    simp only [convert_srec_to_bin]
    by_cases h1 : line = []
    · rw [if_pos h1]
    rw [if_neg h1]
    by_cases h2 : line.headD ' ' ≠ 'S'
    · rw [if_pos h2]
    rw [if_neg h2]
    rcases h with h | h | h
    · exact absurd h h1
    · exact absurd h h2
    · rw [if_pos h]
  · intro line rest e h
    simp only [convert_srec_to_bin] at h ⊢
    by_cases h1 : line = []
    · rw [if_pos h1] at h
      exact absurd h (by simp)
    rw [if_neg h1] at h ⊢
    by_cases h2 : line.headD ' ' ≠ 'S'
    · rw [if_pos h2] at h
      exact absurd h (by simp)
    rw [if_neg h2] at h ⊢
    by_cases h3 : line.getD 1 (Char.ofNat 0) ≠ '1' ∧ line.getD 1 (Char.ofNat 0) ≠ '2' ∧
        line.getD 1 (Char.ofNat 0) ≠ '3'
    · rw [if_pos h3] at h
      exact absurd h (by simp)
    rw [if_neg h3] at h ⊢
    by_cases h4 : line.length <
        4 + (if line.getD 1 (Char.ofNat 0) = '1' then 2
             else if line.getD 1 (Char.ofNat 0) = '2' then 3 else 4) * 2
    · rw [if_pos h4] at h ⊢
      exact h
    rw [if_neg h4] at h ⊢
    cases hdec : decodeHexPairs
        (if (line.drop (4 + (if line.getD 1 (Char.ofNat 0) = '1' then 2
              else if line.getD 1 (Char.ofNat 0) = '2' then 3 else 4) * 2)).length < 2 then
           line.drop (4 + (if line.getD 1 (Char.ofNat 0) = '1' then 2
              else if line.getD 1 (Char.ofNat 0) = '2' then 3 else 4) * 2)
         else (line.drop (4 + (if line.getD 1 (Char.ofNat 0) = '1' then 2
              else if line.getD 1 (Char.ofNat 0) = '2' then 3 else 4) * 2)).take
           ((line.drop (4 + (if line.getD 1 (Char.ofNat 0) = '1' then 2
              else if line.getD 1 (Char.ofNat 0) = '2' then 3 else 4) * 2)).length - 2)) with
    | error e2 =>
      rw [hdec] at h
      exact h
    | ok bs =>
      rw [hdec] at h
      exact absurd h (by simp)
  · intro data hne hstoi
    match data, hne with
    | [c], _ =>
      simp only [List.take] at hstoi
      simp [decodeHexPairs, hstoi]
    | c1 :: c2 :: rest, _ =>
      simp only [List.take] at hstoi
      simp [decodeHexPairs, hstoi]
  · intro c1 c2 hh hs hp hm
    simp [stoi16, List.dropWhile_cons, hs, hp, hm, List.takeWhile_cons, hh]
  · intro c1 c2 hh
    have hs : isSpaceChar c1 = false := by
      revert hh
      simp only [isHexDigitChar, isSpaceChar, decide_eq_true_eq, decide_eq_false_iff_not]
      rintro (⟨ha, hb⟩ | ⟨ha, hb⟩ | ⟨ha, hb⟩) (rfl | rfl | rfl | rfl | rfl | rfl) <;>
        revert ha hb <;> decide
    have hm : c1 ≠ '-' := by
      rintro rfl
      exact absurd hh (by decide)
    have hp : c1 ≠ '+' := by
      rintro rfl
      exact absurd hh (by decide)
    simp [stoi16, List.dropWhile_cons, hs, hm, hp, List.takeWhile_cons, hh]

/-- Witness for C8: a skipped S5 line, an aborting line, an aborting
pair, and an accepted half-malformed pair. -/
theorem C8_decode_strictness_witness :
    convert_srec_to_bin (['S', '5', '0', '3'] :: [['S', '1', '0', '6', 'X', 'X']]) =
      convert_srec_to_bin [['S', '1', '0', '6', 'X', 'X']] ∧
    convert_srec_to_bin (['S', '1', '0', '4', '0', '0', '0', '0', 'G', 'G', 'F', 'F'] :: [[]]) =
      .error .failedToParseHexData ∧
    decodeHexPairs ['G', 'G'] = .error .failedToParseHexData ∧
    stoi16 ['G', '0'] = none ∧
    stoi16 ['0', 'G'] ≠ none :=
  ⟨C8_decode_strictness.1 ['S', '5', '0', '3'] [['S', '1', '0', '6', 'X', 'X']]
      (by decide),
   C8_decode_strictness.2.1 ['S', '1', '0', '4', '0', '0', '0', '0', 'G', 'G', 'F', 'F'] [[]]
      .failedToParseHexData (by decide),
   C8_decode_strictness.2.2.1 ['G', 'G'] (by decide) (by decide),
   C8_decode_strictness.2.2.2.1 'G' '0' (by decide) (by decide) (by decide) (by decide),
   C8_decode_strictness.2.2.2.2 '0' 'G' (by decide)⟩

theorem isHexDigit_hexDigitChar (n : Nat) (h : n < 16) :
    isHexDigitChar (hexDigitChar n) = true := by
  interval_cases n <;> decide

theorem isSpace_hexDigitChar (n : Nat) (h : n < 16) :
    isSpaceChar (hexDigitChar n) = false := by
  interval_cases n <;> decide

theorem hexDigitChar_ne_minus (n : Nat) (h : n < 16) : hexDigitChar n ≠ '-' := by
  interval_cases n <;> decide

theorem hexDigitChar_ne_plus (n : Nat) (h : n < 16) : hexDigitChar n ≠ '+' := by
  interval_cases n <;> decide

theorem hexCharVal_hexDigitChar (n : Nat) (h : n < 16) :
    hexCharVal (hexDigitChar n) = n := by
  interval_cases n <;> decide

/-- `stoi` reads back exactly the byte a two-digit uppercase hex pair
encodes. -/
theorem stoi16_hex2 (b : Nat) (h : b < 256) : stoi16 (hex2 b) = some (b : Int) := by
  have h1 : b / 16 < 16 := by omega
  have h2 : b % 16 < 16 := by omega
  simp only [hex2, stoi16, List.dropWhile_cons, isSpace_hexDigitChar _ h1,
    Bool.false_eq_true, if_false, List.takeWhile_cons, isHexDigit_hexDigitChar _ h1,
    isHexDigit_hexDigitChar _ h2, if_true, List.takeWhile_nil, List.isEmpty_cons,
    hexDigitsValue, List.foldl_cons, List.foldl_nil, hexCharVal_hexDigitChar _ h1,
    hexCharVal_hexDigitChar _ h2]
  rw [if_neg (hexDigitChar_ne_minus _ h1), if_neg (hexDigitChar_ne_plus _ h1)]
  simp only [List.takeWhile_cons, isHexDigit_hexDigitChar _ h1, isHexDigit_hexDigitChar _ h2,
    if_true, List.takeWhile_nil, List.isEmpty_cons, Bool.false_eq_true, if_false,
    hexDigitsValue, List.foldl_cons, List.foldl_nil, hexCharVal_hexDigitChar _ h1,
    hexCharVal_hexDigitChar _ h2, Option.some.injEq]
  have : b / 16 * 16 + b % 16 = b := by omega
  omega

/-- Decoding the hex printing of a byte list gives back the bytes. -/
theorem decodeHexPairs_hexBytes : ∀ bs : List Nat, (∀ b ∈ bs, b < 256) →
    decodeHexPairs (hexBytes bs) = .ok bs := by
  intro bs
  induction bs with
  | nil => intro h; rfl
  | cons b bs ih =>
    intro h
    have hb : b < 256 := h b (List.mem_cons_self b bs)
    have hbs : ∀ x ∈ bs, x < 256 := fun x hx => h x (List.mem_cons_of_mem b hx)
    show decodeHexPairs
      (hexDigitChar (b / 16) :: hexDigitChar (b % 16) :: hexBytes bs) = .ok (b :: bs)
    simp only [decodeHexPairs]
    rw [show [hexDigitChar (b / 16), hexDigitChar (b % 16)] = hex2 b from rfl,
      stoi16_hex2 b hb, ih hbs]
    have hmod : ((b : Int) % 256).toNat = b := by omega
    simp [hmod]

/-- Inversion of a successful `Srec::toString`. -/
theorem toString_ok_inv (r : Srec) (l : List Char) (h : r.toString = .ok l) :
    l = 'S' :: r.typeChar :: (hex2 (r.getRecordData.length + 1) ++ hexBytes r.getRecordData ++
      hex2 (Srec.checksumByte r.getRecordData)) := by
  simp only [Srec.toString] at h
  split_ifs at h with h1
  simp only [Except.ok.injEq] at h
  rw [← h, List.append_assoc]

theorem chunksOfAux_flatten (n : Nat) (hn : n ≠ 0) :
    ∀ fuel l, l.length ≤ fuel → (chunksOfAux n fuel l).flatten = l := by
  intro fuel
  induction fuel with
  | zero =>
    intro l hl
    have : l = [] := List.length_eq_zero.mp (Nat.le_zero.mp hl)
    subst this
    rfl
  | succ fuel ih =>
    intro l hl
    cases l with
    | nil => rfl
    | cons a t =>
      simp only [chunksOfAux, List.flatten_cons]
      rw [ih ((a :: t).drop n)
        (by simp only [List.length_drop, List.length_cons] at hl ⊢; omega)]
      exact List.take_append_drop n (a :: t)

/-- A nonzero chunk size reassembles to the input. -/
theorem chunksOf_flatten (n : Nat) (hn : n ≠ 0) (l : List Nat) :
    (chunksOf n l).flatten = l := by
  unfold chunksOf
  rw [if_neg hn]
  exact chunksOfAux_flatten n hn l.length l le_rfl

theorem chunksOfAux_mem (n : Nat) :
    ∀ fuel l c, c ∈ chunksOfAux n fuel l → ∀ b ∈ c, b ∈ l := by
  intro fuel
  induction fuel with
  | zero =>
    intro l c hc
    cases l <;> simp [chunksOfAux] at hc
  | succ fuel ih =>
    intro l c hc b hb
    cases l with
    | nil => simp [chunksOfAux] at hc
    | cons a t =>
      simp only [chunksOfAux, List.mem_cons] at hc
      rcases hc with rfl | hc
      · exact List.take_subset n (a :: t) hb
      · exact List.drop_subset n (a :: t) (ih ((a :: t).drop n) c hc b hb)

/-- Every chunk element comes from the input list. -/
theorem chunksOf_mem (n : Nat) (l : List Nat) :
    ∀ c ∈ chunksOf n l, ∀ b ∈ c, b ∈ l := by
  intro c hc
  unfold chunksOf at hc
  split_ifs at hc with h
  · simp at hc
  · exact chunksOfAux_mem n l.length l c hc

/-- The count line starts with "S5" or "S6". -/
theorem write_record_count_ok_line (s s' : SrecFileState) (l : List Char)
    (h : write_record_count s = .ok (s', l)) :
    (∃ t, l = 'S' :: '5' :: t) ∨ (∃ t, l = 'S' :: '6' :: t) := by
  by_cases h1 : s.isOpen = false
  · unfold write_record_count at h
    rw [if_pos h1] at h
    exact absurd h (by simp)
  have h1' : s.isOpen = true := by revert h1; cases s.isOpen <;> simp
  by_cases h2 : s.record_count > 0xFFFFFF
  · rw [write_record_count_err s h1' h2] at h
    exact absurd h (by simp)
  by_cases h3 : s.record_count ≤ 0xFFFF
  · rw [write_record_count_s5 s h1' h3] at h
    simp only [Except.ok.injEq, Prod.mk.injEq] at h
    exact .inl ⟨_, h.2.symm⟩
  · rw [write_record_count_s6 s h1' (by omega) (by omega)] at h
    simp only [Except.ok.injEq, Prod.mk.injEq] at h
    exact .inr ⟨_, h.2.symm⟩

theorem termRecord_typeChar (w : AddressSize) (a : Nat) :
    (termRecord w a).typeChar = '9' ∨ (termRecord w a).typeChar = '8' ∨
    (termRecord w a).typeChar = '7' := by
  cases w <;> simp [termRecord, Srec.typeChar]

/-- A line whose type digit is not 1, 2 or 3 is skipped by the
decoder. -/
theorem convert_skip_line (c : Char) (t : List Char) (rest : List (List Char))
    (hc : c ≠ '1' ∧ c ≠ '2' ∧ c ≠ '3') :
    convert_srec_to_bin (('S' :: c :: t) :: rest) = convert_srec_to_bin rest := by
  simp only [convert_srec_to_bin]
  rw [if_neg (by simp), if_neg (by simp), if_pos (by simpa using hc)]

/-- Decoding one well-formed data line contributes exactly its
payload: the count field and checksum are cut off and the payload hex
is read back. -/
theorem convert_data_generic (tc : Char) (alen : Nat)
    (htc : tc = '1' ∨ tc = '2' ∨ tc = '3')
    (halen : (if tc = '1' then 2 else if tc = '2' then 3 else 4) = alen)
    (A : List Nat) (hA : A.length = alen) (N : Nat) (d : List Nat)
    (hd : ∀ b ∈ d, b < 256) (cs : Nat) (rest : List (List Char)) (k : List Nat)
    (hrest : convert_srec_to_bin rest = .ok k) :
    convert_srec_to_bin (('S' :: tc :: (hex2 N ++ hexBytes (A ++ d) ++ hex2 cs)) :: rest) =
      .ok (d ++ k) := by
  have hP : ('S' :: tc :: (hex2 N ++ hexBytes A)).length = 4 + alen * 2 := by
    simp [hex2, hexBytes_length, hA]
    omega
  have hline : ('S' :: tc :: (hex2 N ++ hexBytes (A ++ d) ++ hex2 cs)) =
      ('S' :: tc :: (hex2 N ++ hexBytes A)) ++ (hexBytes d ++ hex2 cs) := by
    simp [hexBytes_append, List.append_assoc]
  have hgetD : ('S' :: tc :: (hex2 N ++ hexBytes (A ++ d) ++ hex2 cs)).getD 1 (Char.ofNat 0) =
      tc := rfl
  have hlenline : ('S' :: tc :: (hex2 N ++ hexBytes (A ++ d) ++ hex2 cs)).length =
      4 + alen * 2 + (2 * d.length + 2) := by
    simp [hex2, hexBytes_length, hA, List.length_append]
    omega
  simp only [convert_srec_to_bin]
  rw [if_neg (by simp), if_neg (by simp)]
  rw [hgetD]
  rw [if_neg (by rcases htc with rfl | rfl | rfl <;> simp)]
  rw [halen]
  rw [if_neg (by rw [hlenline]; omega)]
  have hdrop : ('S' :: tc :: (hex2 N ++ hexBytes (A ++ d) ++ hex2 cs)).drop (4 + alen * 2) =
      hexBytes d ++ hex2 cs := by
    rw [hline]
    exact List.drop_left' hP
  rw [hdrop]
  have hdlen : (hexBytes d ++ hex2 cs).length = 2 * d.length + 2 := by
    simp [hexBytes_length, hex2]
  rw [hdlen]
  rw [if_neg (by omega)]
  have htake : (hexBytes d ++ hex2 cs).take (2 * d.length + 2 - 2) = hexBytes d := by
    have h2 : 2 * d.length + 2 - 2 = 2 * d.length := by omega
    rw [h2]
    exact List.take_left' (hexBytes_length d)
  rw [htake]
  rw [decodeHexPairs_hexBytes d hd, hrest]

/-- Decoding the lines a successful write loop emits yields the
concatenation of the chunks, whatever well-decoding lines follow. -/
theorem writePayloadLoop_decode :
    ∀ (chunks : List (List Nat)) (s s' : SrecFileState) (dataLines : List (List Char))
      (rest : List (List Char)) (k : List Nat),
      (∀ c ∈ chunks, ∀ b ∈ c, b < 256) →
      writePayloadLoop s chunks = .ok (s', dataLines) →
      convert_srec_to_bin rest = .ok k →
      convert_srec_to_bin (dataLines ++ rest) = .ok (chunks.flatten ++ k) := by
  intro chunks
  induction chunks with
  | nil =>
    intro s s' dataLines rest k hb hloop hrest
    simp only [writePayloadLoop, Except.ok.injEq, Prod.mk.injEq] at hloop
    rw [← hloop.2]
    simpa using hrest
  | cons c cs ih =>
    intro s s' dataLines rest k hb hloop hrest
    simp only [writePayloadLoop, except_bind_eq_ok] at hloop
    obtain ⟨⟨s1, line⟩, h1, ⟨s2, lines2⟩, h2, hinj⟩ := hloop
    simp only [Except.ok.injEq, Prod.mk.injEq] at hinj
    obtain ⟨-, hdl⟩ := hinj
    obtain ⟨-, -, -, -, -, -, hline⟩ := write_record_payload_ok_inv s c s1 line h1
    have hcs : ∀ x ∈ cs, ∀ b ∈ x, b < 256 := fun x hx => hb x (List.mem_cons_of_mem c hx)
    have hc : ∀ b ∈ c, b < 256 := hb c (List.mem_cons_self c cs)
    have htail := ih s1 s2 lines2 rest k hcs h2 hrest
    rw [← hdl]
    simp only [List.cons_append]
    rw [hline, List.flatten_cons, List.append_assoc c cs.flatten k]
    exact convert_data_generic (dataTypeChar s.address_size_bits)
      (addrWidthBytes s.address_size_bits)
      (by cases s.address_size_bits <;> simp [dataTypeChar])
      (by cases s.address_size_bits <;> rfl)
      (addrFieldBytes s.address_size_bits s.address)
      (addrFieldBytes_length s.address_size_bits s.address)
      (addrWidthBytes s.address_size_bits + c.length + 1) c hc
      (Srec.checksumByte (addrFieldBytes s.address_size_bits s.address ++ c))
      (lines2 ++ rest) (cs.flatten ++ k) htail

/-- C1: whenever `convert_bin_to_srec` (equivalently the
`convert_stream` loop) encodes a byte sequence B into an S-record
file — for any address width, start address and checksum option —
decoding that file with `convert_srec_to_bin` yields exactly B. -/
theorem C1_roundtrip :
    ∀ (crc : List Nat → Nat → Nat) (w : AddressSize) (start : Nat) (opened : Bool)
      (want_checksum : Bool) (B : List Nat) (lines : List (List Char)),
      (∀ b ∈ B, b < 256) →
      convert_bin_to_srec crc w start opened want_checksum B = .ok lines →
      convert_srec_to_bin lines = .ok B := by
  intro crc w start opened wcs B lines hB h
  unfold convert_bin_to_srec at h
  simp only [except_bind_eq_ok] at h
  obtain ⟨⟨s1, dataLines⟩, hloop, ⟨s2, countLine⟩, hcount, ⟨s3, termLine⟩, hterm, h⟩ := h
  have hcl := write_record_count_ok_line s1 s2 countLine hcount
  have hterm2 := (write_record_termination_ok s2 s3 termLine hterm).2
  have htl := toString_ok_inv _ _ hterm2
  have htc := termRecord_typeChar s2.address_size_bits s2.exec_address
  have h1 : convert_srec_to_bin [termLine] = .ok [] := by
    rw [htl]
    rcases htc with hc | hc | hc <;> rw [hc]
    · rw [convert_skip_line '9' _ _ (by decide)]
      rfl
    · rw [convert_skip_line '8' _ _ (by decide)]
      rfl
    · rw [convert_skip_line '7' _ _ (by decide)]
      rfl
  have htail : convert_srec_to_bin [countLine, termLine] = .ok [] := by
    rcases hcl with ⟨t5, hc5⟩ | ⟨t6, hc6⟩
    · rw [hc5, convert_skip_line '5' _ _ (by decide)]
      exact h1
    · rw [hc6, convert_skip_line '6' _ _ (by decide)]
      exact h1
  have hchunk_mem : ∀ c ∈ chunksOf (max_data_bytes_per_record w) B, ∀ b ∈ c, b < 256 :=
    fun c hc b hb => hB b (chunksOf_mem _ B c hc b hb)
  have hdata := writePayloadLoop_decode (chunksOf (max_data_bytes_per_record w) B)
    (SrecFile.init w start opened) s1 dataLines [countLine, termLine] [] hchunk_mem hloop htail
  have hflat : (chunksOf (max_data_bytes_per_record w) B).flatten = B :=
    chunksOf_flatten _ (by cases w <;> decide) B
  rw [hflat, List.append_nil] at hdata
  by_cases hw : wcs = true
  · rw [if_pos hw] at h
    simp only [except_bind_eq_ok] at h
    obtain ⟨s0line, hs0, h⟩ := h
    have hs0l := toString_ok_inv _ _ hs0
    simp only [Except.ok.injEq] at h
    rw [← h, hs0l, convert_skip_line _ _ _ (by simp only [Srec.typeChar]; decide)]
    exact hdata
  · have hw' : wcs = false := by revert hw; cases wcs <;> simp
    rw [if_neg (by rw [hw']; simp)] at h
    simp only [Except.ok.injEq] at h
    rw [← h]
    exact hdata

/-- Witness for C1: the bytes 1, 2, 3 through a fresh 16-bit session
and back. -/
theorem C1_roundtrip_witness :
    convert_srec_to_bin
      [['S', '1', '0', '6', '0', '0', '0', '0', '0', '1', '0', '2', '0', '3', 'F', '3'],
       ['S', '5', '0', '3', '0', '0', '0', '1', 'F', 'B'],
       ['S', '9', '0', '3', '0', '0', '0', '0', 'F', 'C']] = .ok [1, 2, 3] :=
  C1_roundtrip (fun _ acc => acc) .bits16 0 true false [1, 2, 3]
    [['S', '1', '0', '6', '0', '0', '0', '0', '0', '1', '0', '2', '0', '3', 'F', '3'],
     ['S', '5', '0', '3', '0', '0', '0', '1', 'F', 'B'],
     ['S', '9', '0', '3', '0', '0', '0', '0', 'F', 'C']] (by decide) (by decide)
